import Mathlib

/-!
Verification of the style-extraction and button-scoring pipeline of
`src/get-styles.ts` (shopify-style-extractor).

The pure logic of the source file is embedded shallowly:

* `parseRgbString`, `parseHexColor`, `rgbToHex`, `getContrast` — the Color
  Math helpers.  The JS regular expression
  `rgba?\(\s*(\d+),\s*(\d+),\s*(\d+)(?:,\s*(\d?.?\d+))?\)` is modelled by an
  explicit leftmost-match backtracking matcher (`findRgbMatch`).
* `calculateButtonScore` and the winner-selection `reduce` in `getStyles`
  (`selectWinner`).
* The merge `themePrimaryButton ?? primaryButton ?? DEFAULT_BUTTON_STYLE`
  (`mergedPrimaryButton`), with runtime objects modelled as ordered field
  lists so that the presence of ephemeral fields is observable.
* `getProductPageUrl`, with the network fetch abstracted as an optional
  feed value and `Date.now()` as an integer input.

JS numbers that can be `NaN` are modelled as `Option` values (`none` = NaN):
`Number.parseInt` / `Number.parseFloat` return `Option`, and the real-valued
score arithmetic propagates `none` exactly as JS propagates NaN.
-/

namespace ShopStyles

/-! ### Character classes of the JS regexes -/

/-- JS regex `\d` : exactly the ASCII digits. -/
def isDigitCh (c : Char) : Bool := '0' ≤ c && c ≤ '9'

/-- JS regex `\s` (ASCII part: space, tab, LF, VT, FF, CR).  JS additionally
treats some unicode spaces as `\s`; every string in the repository and in the
claims uses only ASCII whitespace. -/
def isWsCh (c : Char) : Bool :=
  c = ' ' || c = '\t' || c = '\n' || c = '\x0b' || c = '\x0c' || c = '\r'

/-- JS regex `[0-9A-Fa-f]`. -/
def isHexCh (c : Char) : Bool :=
  isDigitCh c || ('a' ≤ c && c ≤ 'f') || ('A' ≤ c && c ≤ 'F')

/-- JS regex `.` (without the `s` flag): any char except a line terminator. -/
def notNewline (c : Char) : Bool := !(c = '\n' || c = '\r')

/-- Value of an all-digit token, as read by `Number.parseInt(s, 10)` on a
token matched by `\d+` (never NaN there). -/
def decVal (cs : List Char) : ℕ :=
  cs.foldl (fun a c => 10 * a + (c.toNat - 48)) 0

/-- Value of one hex digit. -/
def hexDigitVal (c : Char) : ℕ :=
  if isDigitCh c then c.toNat - 48
  else if 'a' ≤ c && c ≤ 'f' then c.toNat - 87
  else if 'A' ≤ c && c ≤ 'F' then c.toNat - 55
  else 0

/-- Value of an all-hex-digit token. -/
def hexVal (cs : List Char) : ℕ :=
  cs.foldl (fun a c => 16 * a + hexDigitVal c) 0

/-! ### `Number.parseInt(s, 16)` and `Number.parseFloat(s)` -/

/-- An optional leading `+`/`-` sign: the signum and the remaining input. -/
def stripSign (cs : List Char) : ℤ × List Char :=
  if cs.head? = some '+' then (1, cs.tail)
  else if cs.head? = some '-' then (-1, cs.tail)
  else (1, cs)

/-- Model of `Number.parseInt(s, 16)`: optional whitespace and sign, optional
`0x`/`0X` prefix, then the maximal run of hex digits; no digits means NaN
(`none`). -/
def parseIntHex (cs0 : List Char) : Option ℤ :=
  let sg := stripSign (cs0.dropWhile isWsCh)
  let cs3 := if sg.2.take 2 = ['0', 'x'] ∨ sg.2.take 2 = ['0', 'X'] then sg.2.drop 2 else sg.2
  let ds := cs3.takeWhile isHexCh
  if ds.isEmpty then none
  else some (sg.1 * (hexVal ds : ℤ))

/-- Model of `Number.parseFloat(s)`: optional whitespace and sign, decimal
mantissa `digits[.digits]`, optional exponent; no mantissa digits means NaN
(`none`). -/
def parseFloatJS (cs0 : List Char) : Option ℚ :=
  let sg := stripSign (cs0.dropWhile isWsCh)
  let ip := sg.2.takeWhile isDigitCh
  let cs3 := sg.2.dropWhile isDigitCh
  let fp : List Char × List Char :=
    if cs3.head? = some '.' then (cs3.tail.takeWhile isDigitCh, cs3.tail.dropWhile isDigitCh)
    else ([], cs3)
  if ip.isEmpty && fp.1.isEmpty then none
  else
    let mant : ℚ := (sg.1 : ℚ) * ((decVal ip : ℚ) + (decVal fp.1 : ℚ) / 10 ^ fp.1.length)
    if fp.2.head? = some 'e' ∨ fp.2.head? = some 'E' then
      let es := stripSign fp.2.tail
      let ed := es.2.takeWhile isDigitCh
      if ed.isEmpty then some mant else some (mant * (10 : ℚ) ^ (es.1 * (decVal ed : ℤ)))
    else some mant

/-! ### The regex of `parseRgbString`

`/rgba?\(\s*(\d+),\s*(\d+),\s*(\d+)(?:,\s*(\d?.?\d+))?\)/` — unanchored,
case-sensitive.  The matcher below realises leftmost matching with the
engine's backtracking order.  Greedy `\s*` / `\d+` runs are taken maximally;
this is equivalent to full backtracking here because each such run is
followed by a token disjoint from its character class (a digit after `\s*`,
a `,` or `)` after `\d+`), so no shorter run can enable a match that the
maximal run forbids (checked case by case for the alpha group below). -/

/-- Captures of one successful match: the three `\d+` groups and an optional
alpha group. -/
structure RgbCaptures where
  d1 : List Char
  d2 : List Char
  d3 : List Char
  alpha : Option (List Char)
deriving DecidableEq, Repr

/-- `\d+` (maximal, nonempty) followed by `)`; returns the digit run. -/
def digitsThenClose (cs : List Char) : Option (List Char) :=
  let ds := cs.takeWhile isDigitCh
  if ds.isEmpty then none
  else if (cs.dropWhile isDigitCh).head? = some ')' then some ds
  else none

/-- The alpha subpattern `\d?.?\d+` immediately followed by `)`.
Alternatives in the engine's preference order (`\d?` greedy, then `.?`
greedy):  both present, only `\d?`, only `.?`, neither. -/
def alphaClose (s : List Char) : Option (List Char) :=
  let a1 : Option (List Char) :=
    match s with
    | c1 :: c2 :: rest =>
      if isDigitCh c1 && notNewline c2 then (digitsThenClose rest).map (fun ds => c1 :: c2 :: ds)
      else none
    | _ => none
  let a2 : Option (List Char) :=
    match s with
    | c1 :: rest =>
      if isDigitCh c1 then (digitsThenClose rest).map (fun ds => c1 :: ds) else none
    | _ => none
  let a3 : Option (List Char) :=
    match s with
    | c1 :: rest =>
      if notNewline c1 then (digitsThenClose rest).map (fun ds => c1 :: ds) else none
    | _ => none
  (a1.orElse fun _ => a2.orElse fun _ => a3.orElse fun _ => digitsThenClose s)

/-- `\s*(\d+),` : whitespace run, a nonempty digit run, then a comma. -/
def wsNumComma (s : List Char) : Option (List Char × List Char) :=
  let s1 := s.dropWhile isWsCh
  let ds := s1.takeWhile isDigitCh
  let r := s1.dropWhile isDigitCh
  if ds.isEmpty then none
  else if r.head? = some ',' then some (ds, r.tail)
  else none

/-- `\s*(\d+)` : whitespace run then a nonempty digit run. -/
def wsNum (s : List Char) : Option (List Char × List Char) :=
  let s1 := s.dropWhile isWsCh
  let ds := s1.takeWhile isDigitCh
  if ds.isEmpty then none else some (ds, s1.dropWhile isDigitCh)

/-- Body after `rgba?\(` : the three channels, then either the (greedy,
optional) `,\s*(\d?.?\d+)` group followed by `)`, or directly `)`.  When the
optional group fails, the fallback `)` must sit where the group started; a
leading `,` there can never be `)`, hence the shape below. -/
def matchAfterParen (s : List Char) : Option RgbCaptures := do
  let p1 ← wsNumComma s
  let p2 ← wsNumComma p1.2
  let p3 ← wsNum p2.2
  if p3.2.head? = some ',' then
    (alphaClose (p3.2.tail.dropWhile isWsCh)).map fun a => ⟨p1.1, p2.1, p3.1, some a⟩
  else if p3.2.head? = some ')' then some ⟨p1.1, p2.1, p3.1, none⟩
  else none

/-- Try the whole regex at one position: `rgb`, optional greedy `a`, `(`,
then the body.  If the char after `rgb` is `a` but no `(` follows, the
backtracked alternative (no `a`) needs `(` where the `a` is — impossible. -/
def matchRgbAt : List Char → Option RgbCaptures
  | 'r' :: 'g' :: 'b' :: 'a' :: '(' :: rest => matchAfterParen rest
  | 'r' :: 'g' :: 'b' :: '(' :: rest => matchAfterParen rest
  | _ => none

/-- Leftmost match: try every start position left to right. -/
def findRgbMatch : List Char → Option RgbCaptures
  | [] => none
  | c :: t => (matchRgbAt (c :: t)).orElse fun _ => findRgbMatch t

/-! ### `parseRgbString` -/

/-- Result record `{r, g, b, a}` of `parseRgbString`; `a` is a JS number that
can be NaN (`none`). -/
structure Rgba where
  r : ℕ
  g : ℕ
  b : ℕ
  a : Option ℚ
deriving DecidableEq, Repr

/-- `parseRgbString` of the source: on regex non-match return
`{r: 0, g: 0, b: 0, a: 1}`; otherwise parse the three integer channels and
`match[4] ? parseFloat(match[4]) : 1` (a participating group 4 is a nonempty
digit-containing string, hence truthy). -/
def parseRgbString (s : String) : Rgba :=
  match findRgbMatch s.toList with
  | none => ⟨0, 0, 0, some 1⟩
  | some m =>
    ⟨decVal m.d1, decVal m.d2, decVal m.d3,
      match m.alpha with
      | none => some 1
      | some cs => parseFloatJS cs⟩

/-! ### `rgbToHex` and `parseHexColor` -/

/-- One hex digit char, lowercase, as produced by `Number.toString(16)`. -/
def toHexChar (n : ℕ) : Char :=
  if n < 10 then Char.ofNat (48 + n) else Char.ofNat (87 + n)

/-- `v.toString(16)` for a natural number `v`. -/
def toString16 (n : ℕ) : List Char :=
  if _h : n < 16 then [toHexChar n]
  else toString16 (n / 16) ++ [toHexChar (n % 16)]
  termination_by n
  decreasing_by exact Nat.div_lt_self (by omega) (by omega)

/-- `s.padStart(2, "0")`. -/
def padStart2 (cs : List Char) : List Char :=
  if cs.length < 2 then List.replicate (2 - cs.length) '0' ++ cs else cs

/-- `rgbToHex(r, g, b)` of the source:
`"#" + [r,g,b].map(v => v.toString(16).padStart(2, "0")).join("")`. -/
def rgbToHex (r g b : ℕ) : String :=
  ⟨'#' :: (padStart2 (toString16 r) ++ padStart2 (toString16 g) ++ padStart2 (toString16 b))⟩

/-- An `{r, g, b}` record whose channels are JS numbers that can be NaN. -/
structure RGBjs where
  r : Option ℤ
  g : Option ℤ
  b : Option ℤ
deriving DecidableEq, Repr

/-- `color.replace("#", "")` : remove the first occurrence of `#`. -/
def removeFirstHash : List Char → List Char
  | [] => []
  | '#' :: t => t
  | c :: t => c :: removeFirstHash t

/-- `parseHexColor` of the source: strip one `#`; a 3-char string has each
digit doubled, anything else is read as `parseInt` of the slices `(0,2)`,
`(2,4)`, `(4,6)` — an empty or partial slice yields NaN channels. -/
def parseHexColor (color : String) : RGBjs :=
  let c := removeFirstHash color.toList
  match c with
  | [x, y, z] => ⟨parseIntHex [x, x], parseIntHex [y, y], parseIntHex [z, z]⟩
  | _ => ⟨parseIntHex (c.take 2), parseIntHex ((c.drop 2).take 2), parseIntHex ((c.drop 4).take 2)⟩

/-! ### JS float arithmetic with NaN (`none`) over an idealised ℝ -/

/-- NaN-propagating addition. -/
noncomputable def jadd : Option ℝ → Option ℝ → Option ℝ
  | some x, some y => some (x + y)
  | _, _ => none

/-- NaN-propagating subtraction. -/
noncomputable def jsub : Option ℝ → Option ℝ → Option ℝ
  | some x, some y => some (x - y)
  | _, _ => none

/-- NaN-propagating multiplication (score factors here are never 0·∞). -/
noncomputable def jmul : Option ℝ → Option ℝ → Option ℝ
  | some x, some y => some (x * y)
  | _, _ => none

/-- NaN-propagating division (every denominator reached is ≥ 0.05 > 0). -/
noncomputable def jdiv : Option ℝ → Option ℝ → Option ℝ
  | some x, some y => some (x / y)
  | _, _ => none

/-- `Math.max`: NaN if either argument is NaN. -/
noncomputable def jmax : Option ℝ → Option ℝ → Option ℝ
  | some x, some y => some (max x y)
  | _, _ => none

/-- `Math.min`: NaN if either argument is NaN. -/
noncomputable def jmin : Option ℝ → Option ℝ → Option ℝ
  | some x, some y => some (min x y)
  | _, _ => none

/-- JS `<` on numbers: false whenever either side is NaN. -/
def jlt : Option ℝ → Option ℝ → Prop
  | some x, some y => x < y
  | _, _ => False

/-- JS `<=` on numbers: false whenever either side is NaN. -/
def jle : Option ℝ → Option ℝ → Prop
  | some x, some y => x ≤ y
  | _, _ => False

/-! ### `getContrast` -/

/-- The inner `luminance` closure of `getContrast`:
`c <= 0.03928 ? c / 12.92 : ((c + 0.055) / 1.055) ** 2.4`.
For NaN input the comparison is false and `NaN ** 2.4` is NaN.  (JS `**`
would also yield NaN for a negative base, but the second branch is only
taken when `c > 0.03928`, so its base is always positive.) -/
noncomputable def luminanceChannel (c : Option ℝ) : Option ℝ :=
  c.map fun x => if x ≤ 0.03928 then x / 12.92 else ((x + 0.055) / 1.055) ^ (2.4 : ℝ)

/-- A channel divided by 255, as a JS number. -/
noncomputable def chanOver255 (n : Option ℤ) : Option ℝ :=
  n.map fun v => (v : ℝ) / 255

/-- `luminance(c.r/255)*0.2126 + luminance(c.g/255)*0.7152 + luminance(c.b/255)*0.0722`. -/
noncomputable def relLum (c : RGBjs) : Option ℝ :=
  jadd
    (jadd (jmul (luminanceChannel (chanOver255 c.r)) (some 0.2126))
      (jmul (luminanceChannel (chanOver255 c.g)) (some 0.7152)))
    (jmul (luminanceChannel (chanOver255 c.b)) (some 0.0722))

/-- `getContrast(fg, bg)` of the source:
`(Math.max(l1, l2) + 0.05) / (Math.min(l1, l2) + 0.05)`. -/
noncomputable def getContrast (fg bg : RGBjs) : Option ℝ :=
  jdiv (jadd (jmax (relLum fg) (relLum bg)) (some 0.05))
    (jadd (jmin (relLum fg) (relLum bg)) (some 0.05))

/-! ### Candidates and the button scorer -/

/-- `getBoundingClientRect()` width/height pair. -/
structure Rect where
  width : ℚ
  height : ℚ
deriving DecidableEq, Repr

/-- The record built per button by `getButtons` / `findButtonBasedOnTheme`:
ten computed-style strings plus the two ephemeral fields `boundingRect` and
`textContent`. -/
structure Candidate where
  backgroundColor : String
  textColor : String
  borderStyle : String
  borderWidth : String
  borderColor : String
  borderRadius : String
  textTransform : String
  fontFamily : String
  fontWeight : String
  padding : String
  boundingRect : Rect
  textContent : String
deriving DecidableEq, Repr

/-- A plain `{r, g, b}` as delivered by ColorThief for the page background. -/
structure RGB where
  r : ℤ
  g : ℤ
  b : ℤ
deriving DecidableEq, Repr

/-- Inject a plain RGB record into the NaN-aware one. -/
def RGB.toJs (c : RGB) : RGBjs := ⟨some c.r, some c.g, some c.b⟩

/-- `/^rgb/i.test(s)`. -/
def rgbPrefixTest (s : String) : Bool :=
  match s.toList with
  | c1 :: c2 :: c3 :: _ => c1.toLower = 'r' && c2.toLower = 'g' && c3.toLower = 'b'
  | _ => false

/-- `/^#([0-9A-Fa-f]{3,6})$/.test(s)`. -/
def hexColorTest (s : String) : Bool :=
  match s.toList with
  | '#' :: rest => rest.all isHexCh && decide (3 ≤ rest.length) && decide (rest.length ≤ 6)
  | _ => false

/-- The btnRGB resolution at the top of `calculateButtonScore`; `none` is the
early `return -1` (alpha < 0.3, or the literal transparent checks), `some`
carries the resolved channels (white fallback included).  An NaN alpha makes
`a < 0.3` false, so it is not rejected. -/
def resolveButtonRGB (s : String) : Option RGBjs :=
  if rgbPrefixTest s then
    let p := parseRgbString s
    match p.a with
    | some q => if q < 3 / 10 then none else some ⟨some (p.r : ℤ), some (p.g : ℤ), some (p.b : ℤ)⟩
    | none => some ⟨some (p.r : ℤ), some (p.g : ℤ), some (p.b : ℤ)⟩
  else if hexColorTest s then some (parseHexColor s)
  else if s = "transparent" || s = "rgba(0, 0, 0, 0)" then none
  else some ⟨some 255, some 255, some 255⟩

/-! Keyword regexes: alternations of literal words joined by `\s*`, case
insensitive, unanchored (`RegExp.test` = does a match exist anywhere).
`\s*` between words is taken maximally, which is equivalent since every
following word starts with a non-whitespace letter. -/

/-- Case-insensitive literal prefix test (pattern is lowercase). -/
def startsWithCI : List Char → List Char → Bool
  | [], _ => true
  | _ :: _, [] => false
  | p :: ps, c :: cs => c.toLower = p && startsWithCI ps cs

/-- One alternative (a list of words joined by `\s*`) matched at the current
position. -/
def seqMatchAt : List (List Char) → List Char → Bool
  | [], _ => true
  | w :: ws, s => startsWithCI w s && seqMatchAt ws ((s.drop w.length).dropWhile isWsCh)

/-- Does an alternative match at some position of the text? -/
def hasSeqMatch (words : List (List Char)) : List Char → Bool
  | [] => seqMatchAt words []
  | c :: t => seqMatchAt words (c :: t) || hasSeqMatch words t

/-- `.test` of an alternation of word sequences. -/
def testAlternation (pats : List (List (List Char))) (s : String) : Bool :=
  pats.any fun p => hasSeqMatch p s.toList

/-- `primaryCtaRegex.test`. -/
def primaryCtaTest (s : String) : Bool :=
  testAlternation
    [[ "add".toList, "to".toList, "cart".toList],
     [ "add".toList, "to".toList, "bag".toList],
     [ "add".toList, "to".toList, "basket".toList],
     [ "buy".toList, "now".toList],
     [ "checkout".toList],
     [ "purchase".toList],
     [ "subscribe".toList],
     [ "shop".toList, "now".toList],
     [ "get".toList, "started".toList],
     [ "order".toList, "now".toList]] s

/-- `secondaryCtaRegex.test` (the source lists `add\s*to\s*wishlist` twice;
a duplicated alternative is redundant). -/
def secondaryCtaTest (s : String) : Bool :=
  testAlternation [[ "add".toList, "to".toList, "wishlist".toList]] s

/-- `cookieRegex.test`. -/
def cookieTest (s : String) : Bool :=
  testAlternation
    [[ "accept".toList, "cookies".toList],
     [ "accept".toList, "all".toList]] s

/-- The keyword bucket rule of the scorer, first match wins:
primary +25, else secondary +15, else cookie −20, else 0. -/
def keywordDelta (t : String) : ℤ :=
  if primaryCtaTest t then 25
  else if secondaryCtaTest t then 15
  else if cookieTest t then -20
  else 0

/-- `calculateButtonScore(btnStyle, bgRGB)` of the source.  `score` starts at
−1; after the btnRGB resolution (early `return -1` cases folded into
`resolveButtonRGB`) the contrast, keyword, size and short-text contributions
are applied in order. -/
noncomputable def calculateButtonScore (btn : Candidate) (bgRGB : RGB) : Option ℝ :=
  match resolveButtonRGB btn.backgroundColor with
  | none => some (-1)
  | some btnRGB =>
    let s1 := jadd (some (-1)) (jmul (getContrast btnRGB bgRGB.toJs) (some 3))
    let s2 :=
      if primaryCtaTest btn.textContent then jadd s1 (some 25)
      else if secondaryCtaTest btn.textContent then jadd s1 (some 15)
      else if cookieTest btn.textContent then jsub s1 (some 20)
      else s1
    let s3 :=
      if 120 < btn.boundingRect.width ∧ 35 < btn.boundingRect.height then jadd s2 (some 5)
      else s2
    if btn.textContent.trim.length < 3 then jsub s3 (some 5) else s3

/-! ### Winner selection (the `reduce` in `getStyles`) -/

open scoped Classical in
/-- One step of the `reduce`: replace the running best only on a strictly
greater score (`currentScore > best.score`; false when the score is NaN). -/
noncomputable def bestStep (bgRGB : RGB) (best : Option Candidate × Option ℝ)
    (c : Candidate) : Option Candidate × Option ℝ :=
  let s := calculateButtonScore c bgRGB
  if jlt best.2 s then (some c, s) else best

/-- The selected `button` of the `reduce`, starting from
`{button: null, score: -1}`. -/
noncomputable def selectWinner (l : List Candidate) (bgRGB : RGB) : Option Candidate :=
  (l.foldl (bestStep bgRGB) (none, some (-1))).1

/-! ### The profile merge (`themePrimaryButton ?? primaryButton ?? DEFAULT_BUTTON_STYLE`)

The returned `primaryButton` is whatever runtime object the chosen branch
holds.  To make the set of fields observable, objects are modelled as ordered
`(key, value)` lists exactly as built by the source. -/

/-- A field value of a button object: a CSS string or the nested
`boundingRect` record. -/
inductive FieldVal where
  | s : String → FieldVal
  | rect : ℚ → ℚ → FieldVal
deriving DecidableEq, Repr

/-- The object literal returned per element by `getButtons` (and identically
by `findButtonBasedOnTheme`): the ten style fields plus `boundingRect` and
`textContent`, in source order. -/
def candidateToObj (c : Candidate) : List (String × FieldVal) :=
  [( "backgroundColor", FieldVal.s c.backgroundColor),
   ( "textColor", FieldVal.s c.textColor),
   ( "borderStyle", FieldVal.s c.borderStyle),
   ( "borderWidth", FieldVal.s c.borderWidth),
   ( "borderColor", FieldVal.s c.borderColor),
   ( "borderRadius", FieldVal.s c.borderRadius),
   ( "textTransform", FieldVal.s c.textTransform),
   ( "fontFamily", FieldVal.s c.fontFamily),
   ( "fontWeight", FieldVal.s c.fontWeight),
   ( "padding", FieldVal.s c.padding),
   ( "boundingRect", FieldVal.rect c.boundingRect.width c.boundingRect.height),
   ( "textContent", FieldVal.s c.textContent)]

/-- `DEFAULT_BUTTON_STYLE` of the source (ten style fields, no ephemerals). -/
def defaultButtonStyle : List (String × FieldVal) :=
  [( "backgroundColor", FieldVal.s "#000000"),
   ( "textColor", FieldVal.s "#FFFFFF"),
   ( "borderStyle", FieldVal.s "none"),
   ( "borderWidth", FieldVal.s "0"),
   ( "borderColor", FieldVal.s "#000000"),
   ( "borderRadius", FieldVal.s "0"),
   ( "textTransform", FieldVal.s "none"),
   ( "fontFamily",
     FieldVal.s "system-ui, -apple-system, BlinkMacSystemFont, \x27Segoe UI\x27, Roboto, Oxygen, Ubuntu, Cantarell, \x27Open Sans\x27, \x27Helvetica Neue\x27, sans-serif"),
   ( "fontWeight", FieldVal.s "normal"),
   ( "padding", FieldVal.s "0")]

/-- The merged `primaryButton` of the returned profile:
`themePrimaryButton ?? primaryButton ?? DEFAULT_BUTTON_STYLE`, where
`primaryButton` is the winner of the scoring `reduce` over the collected
buttons. -/
noncomputable def mergedPrimaryButton (themeBtn : Option Candidate)
    (buttons : List Candidate) (bgRGB : RGB) : List (String × FieldVal) :=
  match themeBtn with
  | some t => candidateToObj t
  | none =>
    match selectWinner buttons bgRGB with
    | some w => candidateToObj w
    | none => defaultButtonStyle

/-- Key lookup in a button object (JS property access). -/
def getField (obj : List (String × FieldVal)) (k : String) : Option FieldVal :=
  (obj.find? fun e => e.1 = k).map Prod.snd

/-! ### `getProductPageUrl`

The `fetch` of `{url}/products.json` and `Date.now()` are environment
effects; they enter the model as an optional decoded feed (`none` = the fetch
threw, the body was not JSON, or the feed was malformed so that reading
`products`/`images` threw inside the `try`) and the current epoch-millisecond
time.  A product's `published_at` is `none` when the field is absent, falsy,
or an invalid date (an invalid `Date` compares false). -/

/-- One entry of `products.json`. -/
structure Product where
  handle : Option String
  imagesCount : ℕ
  published_at : Option ℤ
deriving DecidableEq, Repr

/-- The `find` predicate: at least one image, a truthy `published_at`, and
`new Date(published_at) < new Date(Date.now() - 30*24*60*60*1000)`. -/
def qualifies (now : ℤ) (p : Product) : Bool :=
  0 < p.imagesCount &&
    match p.published_at with
    | some t => decide (t < now - 30 * 24 * 60 * 60 * 1000)
    | none => false

/-- `getProductPageUrl` of the source: first qualifying product's handle, or
the original url on any failure (no match, falsy handle, or a thrown
fetch/parse error). -/
def getProductPageUrl (url : String) (now : ℤ) (feed : Option (List Product)) : String :=
  match feed with
  | none => url
  | some products =>
    match (products.find? (qualifies now)).bind (fun p => p.handle) with
    | none => url
    | some h => if h = "" then url else url ++ "/products/" ++ h

/-! ### Auxiliary predicates and sample data used by the theorems below -/

/-- A nonempty all-digit token (what `\d+` can match). -/
def IsDigitRun (ds : List Char) : Prop := ds ≠ [] ∧ ∀ c ∈ ds, isDigitCh c = true

/-- An all-whitespace run (what `\s*` can match). -/
def IsWsRun (w : List Char) : Prop := ∀ c ∈ w, isWsCh c = true

/-- A sample candidate: all style fields fixed, the background color, text
and bounding box variable. -/
def mkCand (bg text : String) (w h : ℚ) : Candidate :=
  ⟨bg, "rgb(255, 255, 255)", "none", "0px", "rgb(0, 0, 0)", "4px", "none",
    "Arial", "400", "10px", ⟨w, h⟩, text⟩

/-- Key strings of the button objects, named so that theorem statements can
refer to them. -/
def bgColorKey : String := "backgroundColor"

def textColorKey : String := "textColor"

def borderStyleKey : String := "borderStyle"

def borderWidthKey : String := "borderWidth"

def fontFamilyKey : String := "fontFamily"

def boundingRectKey : String := "boundingRect"

def textContentKey : String := "textContent"

/-- The default button's black background. -/
def blackHex : String := "#000000"

/-- The default button's white text color. -/
def whiteHex : String := "#FFFFFF"

/-- The default button's system sans-serif font stack. -/
def sysFontStack : String :=
  "system-ui, -apple-system, BlinkMacSystemFont, \x27Segoe UI\x27, Roboto, Oxygen, Ubuntu, Cantarell, \x27Open Sans\x27, \x27Helvetica Neue\x27, sans-serif"

/-- A string of the shape `rgb(` w1 d1 `,` w2 d2 `,` w3 d3 `)` — the rgb form
with whitespace runs after the opening paren and after each comma. -/
def rgbForm (w1 d1 w2 d2 w3 d3 : List Char) : String :=
  ⟨'r' :: 'g' :: 'b' :: '(' ::
    (w1 ++ (d1 ++ (',' :: (w2 ++ (d2 ++ (',' :: (w3 ++ (d3 ++ [')']))))))))⟩

/-- A string of the shape `rgba(` w1 d1 `,` w2 d2 `,` w3 d3 `,` w4 a `)`. -/
def rgbaForm (w1 d1 w2 d2 w3 d3 w4 a : List Char) : String :=
  ⟨'r' :: 'g' :: 'b' :: 'a' :: '(' ::
    (w1 ++ (d1 ++ (',' :: (w2 ++ (d2 ++ (',' ::
      (w3 ++ (d3 ++ (',' :: (w4 ++ (a ++ [')'])))))))))))⟩

end ShopStyles

namespace ShopStyles

/-! ## Helper lemmas -/

theorem ne_of_predFalse {p : Char → Bool} {c c0 : Char} (h : p c = true)
    (h0 : p c0 = false) : c ≠ c0 := by
  intro e
  rw [e, h0] at h
  exact Bool.false_ne_true h

theorem dropWhile_append_all {p : Char → Bool} {w rest : List Char}
    (hw : ∀ c ∈ w, p c = true) (hr : rest.dropWhile p = rest) :
    (w ++ rest).dropWhile p = rest := by
  induction w with
  | nil => simpa using hr
  | cons c t ih =>
    rw [List.cons_append, List.dropWhile_cons_of_pos (hw c (List.mem_cons_self c t))]
    exact ih fun x hx => hw x (List.mem_cons_of_mem c hx)

theorem takeWhile_append_all {p : Char → Bool} {w rest : List Char}
    (hw : ∀ c ∈ w, p c = true) (hr : rest.takeWhile p = []) :
    (w ++ rest).takeWhile p = w := by
  induction w with
  | nil => simpa using hr
  | cons c t ih =>
    rw [List.cons_append, List.takeWhile_cons_of_pos (hw c (List.mem_cons_self c t)),
      ih fun x hx => hw x (List.mem_cons_of_mem c hx)]

theorem ws_false_of_digit {c : Char} (h : isDigitCh c = true) : isWsCh c = false := by
  cases hw : isWsCh c with
  | false => rfl
  | true =>
    simp only [isWsCh, Bool.or_eq_true, decide_eq_true_eq] at hw
    rcases hw with ((((e|e)|e)|e)|e)|e <;> subst e <;> exact absurd h (by decide)

end ShopStyles

namespace ShopStyles

theorem jmax_comm (a b : Option ℝ) : jmax a b = jmax b a := by
  cases a <;> cases b <;> simp [jmax, max_comm]

theorem jmin_comm (a b : Option ℝ) : jmin a b = jmin b a := by
  cases a <;> cases b <;> simp [jmin, min_comm]

/-- C9: the contrast-ratio function is symmetric in its two arguments:
for all colors A and B, `getContrast A B = getContrast B A`. -/
theorem claim_C9_contrast_symm (A B : RGBjs) : getContrast A B = getContrast B A := by
  unfold getContrast
  rw [jmax_comm, jmin_comm]

/-- C2: the returned `primaryButton` follows the fixed precedence — the
theme-resolved button when present (whatever the candidate list and its
scores), else the scorer's winning candidate, else (no winner; in particular
zero candidates and no theme match) exactly `DEFAULT_BUTTON_STYLE`, whose
fields are the opaque black background, white text, no border and the system
sans-serif font stack. -/
theorem claim_C2_merge_precedence (bg : RGB) (buttons : List Candidate) :
    (∀ t : Candidate, mergedPrimaryButton (some t) buttons bg = candidateToObj t)
    ∧ (∀ w : Candidate, selectWinner buttons bg = some w →
        mergedPrimaryButton none buttons bg = candidateToObj w)
    ∧ (selectWinner buttons bg = none →
        mergedPrimaryButton none buttons bg = defaultButtonStyle)
    ∧ mergedPrimaryButton none [] bg = defaultButtonStyle
    ∧ getField defaultButtonStyle bgColorKey = some (FieldVal.s blackHex)
    ∧ getField defaultButtonStyle textColorKey = some (FieldVal.s whiteHex)
    ∧ getField defaultButtonStyle borderStyleKey = some (FieldVal.s ( "none"))
    ∧ getField defaultButtonStyle borderWidthKey = some (FieldVal.s ( "0"))
    ∧ getField defaultButtonStyle fontFamilyKey = some (FieldVal.s sysFontStack) := by
  refine ⟨fun t => rfl, fun w hw => ?_, fun hn => ?_, ?_, ?_, ?_, ?_, ?_, ?_⟩
  · simp only [mergedPrimaryButton, hw]
  · simp only [mergedPrimaryButton, hn]
  · rfl
  · with_unfolding_all rfl
  · with_unfolding_all rfl
  · with_unfolding_all rfl
  · with_unfolding_all rfl
  · with_unfolding_all rfl

/-- Closed instance of C2: theme-override and empty-candidate branches at a
concrete input. -/
theorem claim_C2_merge_precedence_witness :
    mergedPrimaryButton (some (mkCand ( "rgb(0, 0, 0)") ( "add to cart") 200 50)) []
        ⟨255, 255, 255⟩
      = candidateToObj (mkCand ( "rgb(0, 0, 0)") ( "add to cart") 200 50)
    ∧ mergedPrimaryButton none [] ⟨255, 255, 255⟩ = defaultButtonStyle := by
  refine ⟨(claim_C2_merge_precedence ⟨255, 255, 255⟩ []).1 _, ?_⟩
  exact (claim_C2_merge_precedence ⟨255, 255, 255⟩ []).2.2.1 (by rfl)

/-- C6: product-page resolution picks the first feed product with at least
one image and a `published_at` more than 30 days before `now`; a 40-day-old
product with images wins over one published yesterday; and on a failed fetch
(`none` feed), a feed with no qualifying product, or a falsy handle the
original URL is returned unchanged (the model is a total function — nothing
escapes it). -/
theorem claim_C6_product_page (url : String) (now : ℤ) :
    getProductPageUrl url now none = url
    ∧ (∀ ps : List Product, (∀ p ∈ ps, qualifies now p = false) →
        getProductPageUrl url now (some ps) = url)
    ∧ (∀ (ps : List Product) (p : Product) (h : String),
        ps.find? (qualifies now) = some p → p.handle = some h → h ≠ "" →
        getProductPageUrl url now (some ps) = url ++ "/products/" ++ h)
    ∧ (∀ h1 h2 : String, h1 ≠ "" →
        getProductPageUrl url now
            (some [⟨some h1, 1, some (now - 40 * 24 * 60 * 60 * 1000)⟩,
              ⟨some h2, 1, some (now - 24 * 60 * 60 * 1000)⟩])
          = url ++ "/products/" ++ h1) := by
  have key : ∀ (ps : List Product) (p : Product) (h : String),
      ps.find? (qualifies now) = some p → p.handle = some h → h ≠ "" →
      getProductPageUrl url now (some ps) = url ++ "/products/" ++ h := by
    intro ps p h hf hh hne
    simp [getProductPageUrl, hf, hh, hne]
  refine ⟨rfl, fun ps hps => ?_, key, fun h1 h2 hne => ?_⟩
  · have : ps.find? (qualifies now) = none := List.find?_eq_none.mpr (by simpa using hps)
    simp [getProductPageUrl, this]
  · have hq : qualifies now ⟨some h1, 1, some (now - 40 * 24 * 60 * 60 * 1000)⟩ = true := by
      simp only [qualifies]
      rw [Bool.and_eq_true]
      exact ⟨rfl, by simp only [decide_eq_true_eq]; omega⟩
    exact key _ _ h1 (List.find?_cons_of_pos _ hq) rfl hne

/-- Closed instance of C6: the 40-day-old product's handle wins and the
thrown-fetch case returns the URL, at concrete inputs. -/
theorem claim_C6_product_page_witness :
    getProductPageUrl ( "https://shop.example") 1700000000000
        (some [⟨some ( "old-product"), 1, some (1700000000000 - 40 * 24 * 60 * 60 * 1000)⟩,
          ⟨some ( "new-product"), 1, some (1700000000000 - 24 * 60 * 60 * 1000)⟩])
      = "https://shop.example/products/old-product"
    ∧ getProductPageUrl ( "https://shop.example") 1700000000000 none = "https://shop.example" := by
  constructor
  · exact (claim_C6_product_page ( "https://shop.example") 1700000000000).2.2.2
      ( "old-product") ( "new-product") (by decide)
  · exact (claim_C6_product_page ( "https://shop.example") 1700000000000).1

end ShopStyles

namespace ShopStyles

/-! ## Reduction lemmas for the NaN-aware arithmetic -/

@[simp] theorem jadd_some (x y : ℝ) : jadd (some x) (some y) = some (x + y) := rfl

@[simp] theorem jsub_some (x y : ℝ) : jsub (some x) (some y) = some (x - y) := rfl

@[simp] theorem jmul_some (x y : ℝ) : jmul (some x) (some y) = some (x * y) := rfl

@[simp] theorem jdiv_some (x y : ℝ) : jdiv (some x) (some y) = some (x / y) := rfl

@[simp] theorem jmax_some (x y : ℝ) : jmax (some x) (some y) = some (max x y) := rfl

@[simp] theorem jmin_some (x y : ℝ) : jmin (some x) (some y) = some (min x y) := rfl

/-- C3: a candidate whose background matches the scorer's rgb test and parses
to alpha < 0.3, and a candidate whose background is literally `transparent`
or `rgba(0,0,0,0)`, scores exactly −1, for every page background and all
other candidate fields.  (The spaceless `rgba(0,0,0,0)` is caught by the
alpha parse; the source's literal comparison uses the spaced form.) -/
theorem claim_C3_low_alpha_reject (c : Candidate) (bg : RGB)
    (h : (rgbPrefixTest c.backgroundColor = true ∧
            ∃ q : ℚ, (parseRgbString c.backgroundColor).a = some q ∧ q < 3 / 10)
          ∨ c.backgroundColor = "transparent" ∨ c.backgroundColor = "rgba(0,0,0,0)") :
    calculateButtonScore c bg = some (-1) := by
  have hres : resolveButtonRGB c.backgroundColor = none := by
    rcases h with ⟨hp, q, hq, hlt⟩ | h | h
    · simp only [resolveButtonRGB, hp, if_true, hq, hlt, if_pos]
    · rw [h]; with_unfolding_all rfl
    · rw [h]; with_unfolding_all rfl
  simp only [calculateButtonScore, hres]

/-- Closed instance of C3: a 0.2-alpha rgba candidate and a `transparent`
candidate each score −1. -/
theorem claim_C3_low_alpha_reject_witness :
    calculateButtonScore (mkCand ( "rgba(10, 20, 30, 0.2)") ( "buy now") 200 50) ⟨0, 0, 0⟩
        = some (-1)
    ∧ calculateButtonScore (mkCand ( "transparent") ( "buy now") 200 50) ⟨0, 0, 0⟩
        = some (-1) := by
  constructor
  · exact claim_C3_low_alpha_reject _ _
      (Or.inl ⟨by with_unfolding_all rfl, 1 / 5, by with_unfolding_all rfl, by norm_num⟩)
  · exact claim_C3_low_alpha_reject _ _ (Or.inr (Or.inl rfl))

/-! ## Definedness and lower bound of the contrast ratio -/

theorem luminance_term_nonneg {x : ℝ} (hx : 0 ≤ x) :
    0 ≤ if x ≤ 0.03928 then x / 12.92 else ((x + 0.055) / 1.055) ^ (2.4 : ℝ) := by
  split
  · exact div_nonneg hx (by norm_num)
  · exact Real.rpow_nonneg (by positivity) _

theorem relLum_nonneg_of (c : RGB) (h1 : 0 ≤ c.r) (h2 : 0 ≤ c.g) (h3 : 0 ≤ c.b) :
    ∃ L, relLum c.toJs = some L ∧ 0 ≤ L := by
  refine ⟨_, rfl, ?_⟩
  have t1 := luminance_term_nonneg (x := (c.r : ℝ) / 255)
    (div_nonneg (by exact_mod_cast h1) (by norm_num))
  have t2 := luminance_term_nonneg (x := (c.g : ℝ) / 255)
    (div_nonneg (by exact_mod_cast h2) (by norm_num))
  have t3 := luminance_term_nonneg (x := (c.b : ℝ) / 255)
    (div_nonneg (by exact_mod_cast h3) (by norm_num))
  have : (0.2126 : ℝ) ≥ 0 := by norm_num
  nlinarith [t1, t2, t3]

theorem getContrast_ge_one (fg bgc : RGB)
    (hf : 0 ≤ fg.r ∧ 0 ≤ fg.g ∧ 0 ≤ fg.b) (hb : 0 ≤ bgc.r ∧ 0 ≤ bgc.g ∧ 0 ≤ bgc.b) :
    ∃ r, getContrast fg.toJs bgc.toJs = some r ∧ 1 ≤ r := by
  obtain ⟨L1, e1, p1⟩ := relLum_nonneg_of fg hf.1 hf.2.1 hf.2.2
  obtain ⟨L2, e2, p2⟩ := relLum_nonneg_of bgc hb.1 hb.2.1 hb.2.2
  refine ⟨(max L1 L2 + 0.05) / (min L1 L2 + 0.05), ?_, ?_⟩
  · simp [getContrast, e1, e2]
  · have hmin : (0 : ℝ) < min L1 L2 + 0.05 := by
      have := le_min p1 p2
      linarith
    rw [one_le_div hmin]
    have := min_le_max (a := L1) (b := L2)
    linarith

end ShopStyles

namespace ShopStyles

/-- Score decomposition: when the background resolves to channels and the
contrast is a real number, the score is
`-1 + contrast·3 + keyword + size bonus + short-text penalty`. -/
theorem score_decomp (c : Candidate) (bg : RGB) (rgb : RGBjs)
    (hres : resolveButtonRGB c.backgroundColor = some rgb)
    (r : ℝ) (hcon : getContrast rgb bg.toJs = some r) :
    calculateButtonScore c bg
      = some (-1 + r * 3 + ((keywordDelta c.textContent : ℤ) : ℝ)
          + (if 120 < c.boundingRect.width ∧ 35 < c.boundingRect.height then (5 : ℝ) else 0)
          + (if c.textContent.trim.length < 3 then (-5 : ℝ) else 0)) := by
  simp only [calculateButtonScore, hres, hcon, jadd_some, jmul_some]
  by_cases hw : 120 < c.boundingRect.width ∧ 35 < c.boundingRect.height <;>
    by_cases ht : c.textContent.trim.length < 3 <;>
      by_cases hp : primaryCtaTest c.textContent = true <;>
        by_cases hs : secondaryCtaTest c.textContent = true <;>
          by_cases hc2 : cookieTest c.textContent = true <;>
            simp [keywordDelta, hw, ht, hp, hs, hc2] <;>
            push_cast <;> ring_nf

end ShopStyles

namespace ShopStyles

/-- C5: keyword scoring applies exactly one bucket per candidate, in priority
order (primary CTA +25, else secondary CTA +15, else cookie-consent −20,
first match wins, else nothing); consequently an "Add to Cart" candidate
scores exactly 45 points — hence strictly — above an otherwise-identical
"Accept Cookies" candidate (same resolvable background color, same 200×50
box). -/
theorem claim_C5_keyword_priority :
    (∀ t : String,
      (primaryCtaTest t = true → keywordDelta t = 25)
      ∧ (primaryCtaTest t = false → secondaryCtaTest t = true → keywordDelta t = 15)
      ∧ (primaryCtaTest t = false → secondaryCtaTest t = false → cookieTest t = true →
          keywordDelta t = -20)
      ∧ (primaryCtaTest t = false → secondaryCtaTest t = false → cookieTest t = false →
          keywordDelta t = 0))
    ∧ (∀ (c1 c2 : Candidate) (bg : RGB) (r g b : ℤ),
        c1.textContent = "Add to Cart" → c2.textContent = "Accept Cookies" →
        c1.backgroundColor = c2.backgroundColor →
        c1.boundingRect = ⟨200, 50⟩ → c2.boundingRect = ⟨200, 50⟩ →
        resolveButtonRGB c2.backgroundColor = some ⟨some r, some g, some b⟩ →
        ∃ s : ℝ, calculateButtonScore c2 bg = some s
          ∧ calculateButtonScore c1 bg = some (s + 45) ∧ s < s + 45) := by
  constructor
  · intro t
    refine ⟨fun hp => by simp [keywordDelta, hp], fun hp hs => by simp [keywordDelta, hp, hs],
      fun hp hs hc => by simp [keywordDelta, hp, hs, hc],
      fun hp hs hc => by simp [keywordDelta, hp, hs, hc]⟩
  · intro c1 c2 bg r g b h1 h2 hbgc hr1 hr2 hres
    obtain ⟨rc, hcon⟩ : ∃ rc, getContrast ⟨some r, some g, some b⟩ bg.toJs = some rc := ⟨_, rfl⟩
    have d2 := score_decomp c2 bg _ hres rc hcon
    have d1 := score_decomp c1 bg _ (hbgc ▸ hres) rc hcon
    rw [h1, hr1] at d1
    rw [h2, hr2] at d2
    have hk1 : keywordDelta ( "Add to Cart") = 25 := by with_unfolding_all rfl
    have hk2 : keywordDelta ( "Accept Cookies") = -20 := by with_unfolding_all rfl
    have htr1 : ¬((( "Add to Cart" : String)).trim.length < 3) := by with_unfolding_all decide
    have htr2 : ¬((( "Accept Cookies" : String)).trim.length < 3) := by with_unfolding_all decide
    rw [hk1] at d1
    rw [hk2] at d2
    norm_num [htr1, htr2] at d1 d2
    refine ⟨_, d2, ?_, by linarith⟩
    rw [d1]
    congr 1
    ring

/-- Closed instance of C5 at concrete candidates on a black background over a
white page. -/
theorem claim_C5_keyword_priority_witness :
    ∃ s : ℝ,
      calculateButtonScore (mkCand ( "rgb(0, 0, 0)") ( "Accept Cookies") 200 50)
          ⟨255, 255, 255⟩ = some s
      ∧ calculateButtonScore (mkCand ( "rgb(0, 0, 0)") ( "Add to Cart") 200 50)
          ⟨255, 255, 255⟩ = some (s + 45)
      ∧ s < s + 45 :=
  claim_C5_keyword_priority.2
    (mkCand ( "rgb(0, 0, 0)") ( "Add to Cart") 200 50)
    (mkCand ( "rgb(0, 0, 0)") ( "Accept Cookies") 200 50)
    ⟨255, 255, 255⟩ 0 0 0 rfl rfl rfl rfl rfl (by with_unfolding_all rfl)

end ShopStyles

namespace ShopStyles

theorem jlt_some_dest {x : ℝ} {b : Option ℝ} (h : jlt (some x) b) :
    ∃ y, b = some y ∧ x < y := by
  cases b with
  | none => exact absurd h (by simp [jlt])
  | some y => exact ⟨y, rfl, h⟩

theorem jle_some_dest {x : ℝ} {b : Option ℝ} (h : jle (some x) b) :
    ∃ y, b = some y ∧ x ≤ y := by
  cases b with
  | none => exact absurd h (by simp [jle])
  | some y => exact ⟨y, rfl, h⟩

theorem jlt_irrefl (a : Option ℝ) : ¬ jlt a a := by
  cases a <;> simp [jlt]

/-- Master invariant of the scoring `reduce`, for any start state whose
running score is a real number: either nothing ever beat the start score and
the state is unchanged, or the result is the earliest candidate of strictly
maximal score among those beating the start score (NaN scores never beat and
are never kept). -/
theorem bestFold_master (bg : RGB) (l : List Candidate) :
    ∀ (b : Option Candidate) (s₀ : ℝ),
      (l.foldl (bestStep bg) (b, some s₀) = (b, some s₀)
          ∧ ∀ c ∈ l, ¬ jlt (some s₀) (calculateButtonScore c bg))
      ∨ (∃ i, ∃ hi : i < l.length,
            l.foldl (bestStep bg) (b, some s₀)
              = (some (l.get ⟨i, hi⟩), calculateButtonScore (l.get ⟨i, hi⟩) bg)
            ∧ jlt (some s₀) (calculateButtonScore (l.get ⟨i, hi⟩) bg)
            ∧ (∀ j, ∀ hj : j < l.length,
                ¬ jlt (calculateButtonScore (l.get ⟨i, hi⟩) bg)
                  (calculateButtonScore (l.get ⟨j, hj⟩) bg))
            ∧ (∀ j, ∀ hj : j < l.length, j < i →
                ¬ jle (calculateButtonScore (l.get ⟨i, hi⟩) bg)
                  (calculateButtonScore (l.get ⟨j, hj⟩) bg))) := by
  induction l with
  | nil =>
    intro b s₀
    left
    exact ⟨rfl, by simp⟩
  | cons c t ih =>
    intro b s₀
    rw [List.foldl_cons]
    by_cases hc : jlt (some s₀) (calculateButtonScore c bg)
    · -- the head strictly beats the running score and becomes the best
      obtain ⟨sc, hsc, hs₀sc⟩ := jlt_some_dest hc
      have hstep : bestStep bg (b, some s₀) c = (some c, some sc) := by
        simp only [bestStep]
        rw [if_pos hc, hsc]
      rw [hstep]
      rcases ih (some c) sc with ⟨he, hall⟩ | ⟨i, hi, he, hgt, hmax, htie⟩
      · -- nothing in the tail beats the head: the head is the winner
        right
        refine ⟨0, Nat.succ_pos _, ?_, hc, ?_, ?_⟩
        · rw [he]
          show (some c, some sc) = (some c, calculateButtonScore c bg)
          rw [hsc]
        · intro j hj
          cases j with
          | zero => exact jlt_irrefl _
          | succ jv =>
            have hjv : jv < t.length := Nat.lt_of_succ_lt_succ hj
            intro hcon
            have hcon' : jlt (calculateButtonScore c bg)
                (calculateButtonScore (t.get ⟨jv, hjv⟩) bg) := hcon
            rw [hsc] at hcon'
            exact hall (t.get ⟨jv, hjv⟩) (List.get_mem t jv hjv) hcon'
        · intro j hj hji
          omega
      · -- the tail produced a winner beating the head's score
        right
        have hit : i < t.length := hi
        refine ⟨i + 1, Nat.succ_lt_succ hit, he, ?_, ?_, ?_⟩
        · obtain ⟨sw, hsw, hscsw⟩ := jlt_some_dest hgt
          show jlt (some s₀) (calculateButtonScore (t.get ⟨i, hit⟩) bg)
          rw [hsw]
          exact lt_trans hs₀sc hscsw
        · intro j hj
          cases j with
          | zero =>
            obtain ⟨sw, hsw, hscsw⟩ := jlt_some_dest hgt
            intro hcon
            have hcon' : jlt (calculateButtonScore (t.get ⟨i, hit⟩) bg)
                (calculateButtonScore c bg) := hcon
            rw [hsw, hsc] at hcon'
            exact absurd (show sw < sc from hcon') (not_lt.mpr (le_of_lt hscsw))
          | succ jv =>
            have hjv : jv < t.length := Nat.lt_of_succ_lt_succ hj
            exact hmax jv hjv
        · intro j hj hji
          cases j with
          | zero =>
            obtain ⟨sw, hsw, hscsw⟩ := jlt_some_dest hgt
            intro hcon
            have hcon' : jle (calculateButtonScore (t.get ⟨i, hit⟩) bg)
                (calculateButtonScore c bg) := hcon
            rw [hsw, hsc] at hcon'
            exact absurd (show sw ≤ sc from hcon') (not_le.mpr hscsw)
          | succ jv =>
            have hjv : jv < t.length := Nat.lt_of_succ_lt_succ hj
            exact htie jv hjv (Nat.lt_of_succ_lt_succ hji)
    · -- the head does not beat the running score; the state is unchanged
      have hstep : bestStep bg (b, some s₀) c = (b, some s₀) := by
        simp only [bestStep]
        rw [if_neg hc]
      rw [hstep]
      rcases ih b s₀ with ⟨he, hall⟩ | ⟨i, hi, he, hgt, hmax, htie⟩
      · left
        refine ⟨he, ?_⟩
        intro x hx
        rcases List.mem_cons.mp hx with rfl | hx
        · exact hc
        · exact hall x hx
      · right
        have hit : i < t.length := hi
        refine ⟨i + 1, Nat.succ_lt_succ hit, he, hgt, ?_, ?_⟩
        · intro j hj
          cases j with
          | zero =>
            obtain ⟨sw, hsw, hs₀sw⟩ := jlt_some_dest hgt
            intro hcon
            have hcon' : jlt (calculateButtonScore (t.get ⟨i, hit⟩) bg)
                (calculateButtonScore c bg) := hcon
            rw [hsw] at hcon'
            obtain ⟨sc', hsc', hlt'⟩ := jlt_some_dest hcon'
            exact hc (by rw [hsc']; exact lt_trans hs₀sw hlt')
          | succ jv =>
            have hjv : jv < t.length := Nat.lt_of_succ_lt_succ hj
            exact hmax jv hjv
        · intro j hj hji
          cases j with
          | zero =>
            obtain ⟨sw, hsw, hs₀sw⟩ := jlt_some_dest hgt
            intro hcon
            have hcon' : jle (calculateButtonScore (t.get ⟨i, hit⟩) bg)
                (calculateButtonScore c bg) := hcon
            rw [hsw] at hcon'
            obtain ⟨sc', hsc', hle'⟩ := jle_some_dest hcon'
            exact hc (by rw [hsc']; exact lt_of_lt_of_le hs₀sw hle')
          | succ jv =>
            have hjv : jv < t.length := Nat.lt_of_succ_lt_succ hj
            exact htie jv hjv (Nat.lt_of_succ_lt_succ hji)

end ShopStyles

namespace ShopStyles

/-- C4: the `reduce` selects the candidate with the strict maximum score
(the running best is replaced only on a strictly greater score, so ties keep
the earliest-seen candidate), and when no candidate's score exceeds the
initial floor of −1 no winner is selected; conversely any candidate beating
−1 forces a winner. -/
theorem claim_C4_winner_selection (bg : RGB) (l : List Candidate) :
    ((∀ c ∈ l, ¬ jlt (some (-1)) (calculateButtonScore c bg)) → selectWinner l bg = none)
    ∧ (∀ c ∈ l, jlt (some (-1)) (calculateButtonScore c bg) → selectWinner l bg ≠ none)
    ∧ (∀ w, selectWinner l bg = some w →
        ∃ i, ∃ hi : i < l.length, l.get ⟨i, hi⟩ = w
          ∧ jlt (some (-1)) (calculateButtonScore w bg)
          ∧ (∀ j, ∀ hj : j < l.length,
              ¬ jlt (calculateButtonScore w bg) (calculateButtonScore (l.get ⟨j, hj⟩) bg))
          ∧ (∀ j, ∀ hj : j < l.length, j < i →
              ¬ jle (calculateButtonScore w bg) (calculateButtonScore (l.get ⟨j, hj⟩) bg))) := by
  refine ⟨?_, ?_, ?_⟩
  · intro hall
    rcases bestFold_master bg l none (-1) with ⟨he, _⟩ | ⟨i, hi, _, hgt, _, _⟩
    · simp [selectWinner, he]
    · exact absurd hgt (hall _ (List.get_mem l i hi))
  · intro c hc hbeats
    rcases bestFold_master bg l none (-1) with ⟨_, hall⟩ | ⟨i, hi, he, _, _, _⟩
    · exact absurd hbeats (hall c hc)
    · simp [selectWinner, he]
  · intro w hw
    rcases bestFold_master bg l none (-1) with ⟨he, _⟩ | ⟨i, hi, he, hgt, hmax, htie⟩
    · rw [show selectWinner l bg = (l.foldl (bestStep bg) (none, some (-1))).1 from rfl,
        he] at hw
      cases hw
    · rw [show selectWinner l bg = (l.foldl (bestStep bg) (none, some (-1))).1 from rfl,
        he] at hw
      obtain rfl : l.get ⟨i, hi⟩ = w := Option.some_inj.mp hw
      exact ⟨i, hi, rfl, hgt, hmax, htie⟩

/-- Closed instance of C4: the empty candidate list yields no winner, and a
single black Add-to-Cart button (which scores above −1) forces one. -/
theorem claim_C4_winner_selection_witness :
    selectWinner [] ⟨255, 255, 255⟩ = none
    ∧ selectWinner [mkCand ( "rgb(0, 0, 0)") ( "Add to Cart") 200 50] ⟨255, 255, 255⟩
        ≠ none := by
  constructor
  · exact (claim_C4_winner_selection ⟨255, 255, 255⟩ []).1 (by simp)
  · refine (claim_C4_winner_selection ⟨255, 255, 255⟩ _).2.1
      (mkCand ( "rgb(0, 0, 0)") ( "Add to Cart") 200 50) (List.mem_singleton.mpr rfl) ?_
    obtain ⟨r, hcon, hr1⟩ := getContrast_ge_one ⟨0, 0, 0⟩ ⟨255, 255, 255⟩
      ⟨le_refl 0, le_refl 0, le_refl 0⟩ ⟨by norm_num, by norm_num, by norm_num⟩
    have hres : resolveButtonRGB
        (mkCand ( "rgb(0, 0, 0)") ( "Add to Cart") 200 50).backgroundColor
        = some ⟨some 0, some 0, some 0⟩ := by with_unfolding_all rfl
    have hcon' : getContrast ⟨some 0, some 0, some 0⟩ (RGB.mk 255 255 255).toJs = some r := hcon
    have hd := score_decomp (mkCand ( "rgb(0, 0, 0)") ( "Add to Cart") 200 50)
      ⟨255, 255, 255⟩ _ hres r hcon'
    have hk : keywordDelta ( "Add to Cart") = 25 := by with_unfolding_all rfl
    have htr : ¬((( "Add to Cart" : String)).trim.length < 3) := by with_unfolding_all decide
    rw [hd]
    dsimp only [mkCand]
    rw [hk, if_pos (⟨by norm_num, by norm_num⟩ : (120 : ℚ) < 200 ∧ (35 : ℚ) < 50), if_neg htr]
    have : ((-1 : ℝ)) < -1 + r * 3 + ((25 : ℤ) : ℝ) + 5 + 0 := by
      push_cast
      linarith
    exact this

end ShopStyles

namespace ShopStyles

@[simp] theorem jadd_none_left (a : Option ℝ) : jadd none a = none := by cases a <;> rfl

@[simp] theorem jadd_none_right (a : Option ℝ) : jadd a none = none := by cases a <;> rfl

@[simp] theorem jsub_none_left (a : Option ℝ) : jsub none a = none := by cases a <;> rfl

@[simp] theorem jsub_none_right (a : Option ℝ) : jsub a none = none := by cases a <;> rfl

@[simp] theorem jmul_none_left (a : Option ℝ) : jmul none a = none := by cases a <;> rfl

@[simp] theorem jmul_none_right (a : Option ℝ) : jmul a none = none := by cases a <;> rfl

/-- C10: `#abcd` passes the scorer's hex-pattern test (it allows 3 to 6 hex
digits), `parseHexColor` reads its slices as 171, 205 and NaN (positions 4–6
are empty), the contrast and the whole score are NaN, and since NaN is never
strictly greater than the running best, such a candidate is never the
selected winner. -/
theorem claim_C10_short_hex_nan :
    hexColorTest ( "#abcd") = true
    ∧ parseHexColor ( "#abcd") = ⟨some 171, some 205, none⟩
    ∧ (∀ (c : Candidate) (bg : RGB), c.backgroundColor = "#abcd" →
        calculateButtonScore c bg = none)
    ∧ (∀ (l : List Candidate) (bg : RGB) (c : Candidate), c.backgroundColor = "#abcd" →
        selectWinner l bg ≠ some c) := by
  have hsc : ∀ (c : Candidate) (bg : RGB), c.backgroundColor = "#abcd" →
      calculateButtonScore c bg = none := by
    intro c bg hbg
    have hres : resolveButtonRGB ( "#abcd") = some ⟨some 171, some 205, none⟩ := by
      with_unfolding_all rfl
    have hnan : getContrast ⟨some 171, some 205, none⟩ bg.toJs = none := rfl
    simp [calculateButtonScore, hbg, hres, hnan]
  refine ⟨rfl, by with_unfolding_all rfl, hsc, ?_⟩
  intro l bg c hbg hw
  rcases bestFold_master bg l none (-1) with ⟨he, _⟩ | ⟨i, hi, he, hgt, _, _⟩
  · rw [show selectWinner l bg = (l.foldl (bestStep bg) (none, some (-1))).1 from rfl,
      he] at hw
    cases hw
  · rw [show selectWinner l bg = (l.foldl (bestStep bg) (none, some (-1))).1 from rfl,
      he] at hw
    obtain rfl : l.get ⟨i, hi⟩ = c := Option.some_inj.mp hw
    rw [hsc _ bg hbg] at hgt
    exact hgt

/-- Closed instance of C10: a concrete `#abcd` candidate has NaN score and is
not selected from a singleton list. -/
theorem claim_C10_short_hex_nan_witness :
    calculateButtonScore (mkCand ( "#abcd") ( "Add to Cart") 200 50) ⟨255, 255, 255⟩ = none
    ∧ selectWinner [mkCand ( "#abcd") ( "Add to Cart") 200 50] ⟨255, 255, 255⟩
        ≠ some (mkCand ( "#abcd") ( "Add to Cart") 200 50) := by
  exact ⟨claim_C10_short_hex_nan.2.2.1 _ ⟨255, 255, 255⟩ rfl,
    claim_C10_short_hex_nan.2.2.2 _ ⟨255, 255, 255⟩ _ rfl⟩

/-- The score of the concrete black Add-to-Cart button over a white page
beats the −1 floor (its contrast ratio is at least 1). -/
theorem black_addToCart_beats :
    jlt (some (-1))
      (calculateButtonScore (mkCand ( "rgb(0, 0, 0)") ( "Add to Cart") 200 50)
        ⟨255, 255, 255⟩) := by
  obtain ⟨r, hcon, hr1⟩ := getContrast_ge_one ⟨0, 0, 0⟩ ⟨255, 255, 255⟩
    ⟨le_refl 0, le_refl 0, le_refl 0⟩ ⟨by norm_num, by norm_num, by norm_num⟩
  have hres : resolveButtonRGB
      (mkCand ( "rgb(0, 0, 0)") ( "Add to Cart") 200 50).backgroundColor
      = some ⟨some 0, some 0, some 0⟩ := by with_unfolding_all rfl
  have hcon' : getContrast ⟨some 0, some 0, some 0⟩ (RGB.mk 255 255 255).toJs = some r := hcon
  have hd := score_decomp (mkCand ( "rgb(0, 0, 0)") ( "Add to Cart") 200 50)
    ⟨255, 255, 255⟩ _ hres r hcon'
  have hk : keywordDelta ( "Add to Cart") = 25 := by with_unfolding_all rfl
  have htr : ¬((( "Add to Cart" : String)).trim.length < 3) := by with_unfolding_all decide
  rw [hd]
  dsimp only [mkCand]
  rw [hk, if_pos (⟨by norm_num, by norm_num⟩ : (120 : ℚ) < 200 ∧ (35 : ℚ) < 50), if_neg htr]
  have : ((-1 : ℝ)) < -1 + r * 3 + ((25 : ℤ) : ℝ) + 5 + 0 := by
    push_cast
    linarith
  exact this

/-- From a one-element list the black Add-to-Cart button is selected. -/
theorem selectWinner_singleton_black :
    selectWinner [mkCand ( "rgb(0, 0, 0)") ( "Add to Cart") 200 50] ⟨255, 255, 255⟩
      = some (mkCand ( "rgb(0, 0, 0)") ( "Add to Cart") 200 50) := by
  show (bestStep ⟨255, 255, 255⟩ (none, some (-1))
      (mkCand ( "rgb(0, 0, 0)") ( "Add to Cart") 200 50)).1 = _
  simp only [bestStep]
  rw [if_pos black_addToCart_beats]

/-- C1 (refuting the claim as stated — the code never strips the ephemeral
fields): both the theme-override branch and the scorer-winner branch of the
merge return the candidate object itself, which still carries `boundingRect`
and `textContent`; the claimed invariant holds only for the default branch. -/
theorem claim_C1_ephemeral_leak :
    getField (mergedPrimaryButton
        (some (mkCand ( "rgb(0, 0, 0)") ( "Add to Cart") 200 50)) [] ⟨255, 255, 255⟩)
        boundingRectKey
      = some (FieldVal.rect 200 50)
    ∧ getField (mergedPrimaryButton
        (some (mkCand ( "rgb(0, 0, 0)") ( "Add to Cart") 200 50)) [] ⟨255, 255, 255⟩)
        textContentKey
      = some (FieldVal.s ( "Add to Cart"))
    ∧ getField (mergedPrimaryButton none
        [mkCand ( "rgb(0, 0, 0)") ( "Add to Cart") 200 50] ⟨255, 255, 255⟩)
        boundingRectKey
      = some (FieldVal.rect 200 50)
    ∧ getField defaultButtonStyle boundingRectKey = none
    ∧ getField defaultButtonStyle textContentKey = none := by
  have hmerge : mergedPrimaryButton none
      [mkCand ( "rgb(0, 0, 0)") ( "Add to Cart") 200 50] ⟨255, 255, 255⟩
      = candidateToObj (mkCand ( "rgb(0, 0, 0)") ( "Add to Cart") 200 50) := by
    simp only [mergedPrimaryButton, selectWinner_singleton_black]
  refine ⟨by with_unfolding_all rfl, by with_unfolding_all rfl, ?_, by with_unfolding_all rfl,
    by with_unfolding_all rfl⟩
  rw [hmerge]
  with_unfolding_all rfl

end ShopStyles

namespace ShopStyles

theorem ws_false_of_hex {c : Char} (h : isHexCh c = true) : isWsCh c = false := by
  cases hw : isWsCh c with
  | false => rfl
  | true =>
    simp only [isWsCh, Bool.or_eq_true, decide_eq_true_eq] at hw
    rcases hw with ((((e|e)|e)|e)|e)|e <;> subst e <;> exact absurd h (by decide)

theorem hexDigit_round {v : ℕ} (h : v < 16) :
    hexDigitVal (toHexChar v) = v ∧ isHexCh (toHexChar v) = true := by
  interval_cases v <;> exact ⟨by decide, by decide⟩

theorem parseIntHex_two {a b : Char} (ha : isHexCh a = true) (hb : isHexCh b = true) :
    parseIntHex [a, b] = some ((16 * hexDigitVal a + hexDigitVal b : ℕ) : ℤ) := by
  have hwa : isWsCh a = false := ws_false_of_hex ha
  have hap : a ≠ '+' := ne_of_predFalse ha (by decide)
  have ham : a ≠ '-' := ne_of_predFalse ha (by decide)
  have hbx : b ≠ 'x' := ne_of_predFalse hb (by decide)
  have hbX : b ≠ 'X' := ne_of_predFalse hb (by decide)
  simp only [parseIntHex, stripSign, List.dropWhile_cons, hwa, Bool.false_eq_true, if_false,
    List.head?, Option.some_inj, hap, ham, if_neg, List.take, List.cons.injEq, hbx, hbX,
    and_false, false_and, or_self, List.takeWhile_cons, ha, hb, if_true, List.takeWhile_nil,
    List.isEmpty_cons, hexVal, List.foldl]
  push_cast
  ring_nf

theorem padStart2_toString16 {n : ℕ} (h : n ≤ 255) :
    padStart2 (toString16 n) = [toHexChar (n / 16), toHexChar (n % 16)] := by
  by_cases h16 : n < 16
  · have e1 : toString16 n = [toHexChar n] := by
      unfold toString16
      rw [dif_pos h16]
    have e2 : n / 16 = 0 := Nat.div_eq_of_lt h16
    have e3 : n % 16 = n := Nat.mod_eq_of_lt h16
    rw [e1, e2, e3]
    rfl
  · have hdiv : n / 16 < 16 := by omega
    have e1 : toString16 n = [toHexChar (n / 16)] ++ [toHexChar (n % 16)] := by
      conv_lhs => unfold toString16
      rw [dif_neg h16]
      conv_lhs => unfold toString16
      rw [dif_pos hdiv]
    rw [e1]
    rfl

/-- C8: for every (r, g, b) in [0,255]³, `parseHexColor (rgbToHex r g b)`
returns exactly `{r, g, b}` — the hex encoding round-trips through the
decoder. -/
theorem claim_C8_hex_roundtrip (r g b : ℕ) (hr : r ≤ 255) (hg : g ≤ 255) (hb : b ≤ 255) :
    parseHexColor (rgbToHex r g b) = ⟨some (r : ℤ), some (g : ℤ), some (b : ℤ)⟩ := by
  have key : ∀ c1 c2 c3 c4 c5 c6 : Char,
      parseHexColor ⟨'#' :: ([c1, c2] ++ [c3, c4] ++ [c5, c6])⟩
        = ⟨parseIntHex [c1, c2], parseIntHex [c3, c4], parseIntHex [c5, c6]⟩ :=
    fun _ _ _ _ _ _ => rfl
  have hform : rgbToHex r g b
      = ⟨'#' :: (padStart2 (toString16 r) ++ padStart2 (toString16 g)
          ++ padStart2 (toString16 b))⟩ := rfl
  rw [hform, padStart2_toString16 hr, padStart2_toString16 hg, padStart2_toString16 hb, key]
  obtain ⟨hv1, hx1⟩ := hexDigit_round (show r / 16 < 16 by omega)
  obtain ⟨hv2, hx2⟩ := hexDigit_round (show r % 16 < 16 by omega)
  obtain ⟨hv3, hx3⟩ := hexDigit_round (show g / 16 < 16 by omega)
  obtain ⟨hv4, hx4⟩ := hexDigit_round (show g % 16 < 16 by omega)
  obtain ⟨hv5, hx5⟩ := hexDigit_round (show b / 16 < 16 by omega)
  obtain ⟨hv6, hx6⟩ := hexDigit_round (show b % 16 < 16 by omega)
  rw [parseIntHex_two hx1 hx2, parseIntHex_two hx3 hx4, parseIntHex_two hx5 hx6,
    hv1, hv2, hv3, hv4, hv5, hv6,
    show 16 * (r / 16) + r % 16 = r from by omega,
    show 16 * (g / 16) + g % 16 = g from by omega,
    show 16 * (b / 16) + b % 16 = b from by omega]

/-- Closed instance of C8 at (0, 17, 255). -/
theorem claim_C8_hex_roundtrip_witness :
    parseHexColor (rgbToHex 0 17 255) = ⟨some 0, some 17, some 255⟩ :=
  claim_C8_hex_roundtrip 0 17 255 (by norm_num) (by norm_num) (by norm_num)

end ShopStyles

namespace ShopStyles

theorem takeWhile_all {p : Char → Bool} {l : List Char} (h : ∀ c ∈ l, p c = true) :
    l.takeWhile p = l := by
  induction l with
  | nil => rfl
  | cons c t ih =>
    rw [List.takeWhile_cons_of_pos (h c (List.mem_cons_self c t)),
      ih fun x hx => h x (List.mem_cons_of_mem c hx)]

theorem dropWhile_all {p : Char → Bool} {l : List Char} (h : ∀ c ∈ l, p c = true) :
    l.dropWhile p = [] := by
  induction l with
  | nil => rfl
  | cons c t ih =>
    rw [List.dropWhile_cons_of_pos (h c (List.mem_cons_self c t))]
    exact ih fun x hx => h x (List.mem_cons_of_mem c hx)

theorem notNewline_of_digit {c : Char} (h : isDigitCh c = true) : notNewline c = true := by
  have h1 : c ≠ '\n' := ne_of_predFalse h (by decide)
  have h2 : c ≠ '\r' := ne_of_predFalse h (by decide)
  simp [notNewline, h1, h2]

theorem dropWhile_ws_append {w : List Char} (hw : IsWsRun w) {d : Char} {t : List Char}
    (hd : isDigitCh d = true) : (w ++ d :: t).dropWhile isWsCh = d :: t :=
  dropWhile_append_all hw (List.dropWhile_cons_of_neg (by simp [ws_false_of_digit hd]))

theorem takeWhile_digits_append {ds : List Char} (hd : ∀ c ∈ ds, isDigitCh c = true)
    {e : Char} {t : List Char} (he : isDigitCh e = false) :
    (ds ++ e :: t).takeWhile isDigitCh = ds :=
  takeWhile_append_all hd (List.takeWhile_cons_of_neg (by simp [he]))

theorem dropWhile_digits_append {ds : List Char} (hd : ∀ c ∈ ds, isDigitCh c = true)
    {e : Char} {t : List Char} (he : isDigitCh e = false) :
    (ds ++ e :: t).dropWhile isDigitCh = e :: t :=
  dropWhile_append_all hd (List.dropWhile_cons_of_neg (by simp [he]))

theorem wsNumComma_run {w ds rest : List Char} (hw : IsWsRun w) (hd : IsDigitRun ds) :
    wsNumComma (w ++ (ds ++ (',' :: rest))) = some (ds, rest) := by
  obtain ⟨hne, hdig⟩ := hd
  obtain ⟨d, ds', rfl⟩ := List.exists_cons_of_ne_nil hne
  have h1 : (w ++ (d :: (ds' ++ (',' :: rest)))).dropWhile isWsCh = d :: (ds' ++ (',' :: rest)) :=
    dropWhile_ws_append hw (hdig d (List.mem_cons_self d ds'))
  have h2 : (d :: (ds' ++ (',' :: rest))).takeWhile isDigitCh = d :: ds' := by
    simpa using takeWhile_digits_append hdig (e := ',') (t := rest) (by decide)
  have h3 : (d :: (ds' ++ (',' :: rest))).dropWhile isDigitCh = ',' :: rest := by
    simpa using dropWhile_digits_append hdig (e := ',') (t := rest) (by decide)
  simp [wsNumComma, h1, h2, h3]

theorem wsNum_run {w ds : List Char} (hw : IsWsRun w) (hd : IsDigitRun ds)
    {e : Char} {t : List Char} (he : isDigitCh e = false) :
    wsNum (w ++ (ds ++ (e :: t))) = some (ds, e :: t) := by
  obtain ⟨hne, hdig⟩ := hd
  obtain ⟨d, ds', rfl⟩ := List.exists_cons_of_ne_nil hne
  have h1 : (w ++ (d :: (ds' ++ (e :: t)))).dropWhile isWsCh = d :: (ds' ++ (e :: t)) :=
    dropWhile_ws_append hw (hdig d (List.mem_cons_self d ds'))
  have h2 : (d :: (ds' ++ (e :: t))).takeWhile isDigitCh = d :: ds' := by
    simpa using takeWhile_digits_append hdig he (t := t)
  have h3 : (d :: (ds' ++ (e :: t))).dropWhile isDigitCh = e :: t := by
    simpa using dropWhile_digits_append hdig he (t := t)
  simp [wsNum, h1, h2, h3]

theorem digitsThenClose_run {ds : List Char} (hd : IsDigitRun ds) :
    digitsThenClose (ds ++ [')']) = some ds := by
  obtain ⟨hne, hdig⟩ := hd
  obtain ⟨d, ds', rfl⟩ := List.exists_cons_of_ne_nil hne
  have h2 : (d :: (ds' ++ [')'])).takeWhile isDigitCh = d :: ds' := by
    simpa using takeWhile_digits_append hdig (e := ')') (t := []) (by decide)
  have h3 : (d :: (ds' ++ [')'])).dropWhile isDigitCh = [')'] := by
    simpa using dropWhile_digits_append hdig (e := ')') (t := []) (by decide)
  simp [digitsThenClose, h2, h3]

end ShopStyles

namespace ShopStyles

theorem isDigitRun_singleton {d : Char} (h : isDigitCh d = true) : IsDigitRun [d] := by
  refine ⟨by simp, ?_⟩
  intro c hcm
  rw [List.mem_singleton.mp hcm]
  exact h

/-- A nonempty digit token immediately before the closing paren is captured
whole by the alpha subpattern (split across its `\d?`, `.?`, `\d+` parts). -/
theorem alphaClose_digits {ds : List Char} (hd : IsDigitRun ds) :
    alphaClose (ds ++ [')']) = some ds := by
  obtain ⟨hne, hdig⟩ := hd
  match ds, hne with
  | [d1], _ =>
    have h1 : isDigitCh d1 = true := hdig d1 (by simp)
    have hc : digitsThenClose [d1, ')'] = some [d1] := by
      simpa using digitsThenClose_run (isDigitRun_singleton h1)
    simp [alphaClose, digitsThenClose, h1, hc, Option.orElse,
      show isDigitCh ')' = false from by decide]
  | [d1, d2], _ =>
    have h1 : isDigitCh d1 = true := hdig d1 (by simp)
    have h2 : isDigitCh d2 = true := hdig d2 (by simp)
    have hc : digitsThenClose [d2, ')'] = some [d2] := by
      simpa using digitsThenClose_run (isDigitRun_singleton h2)
    simp [alphaClose, digitsThenClose, h1, h2, notNewline_of_digit h2, hc, Option.orElse,
      show isDigitCh ')' = false from by decide]
  | d1 :: d2 :: d3 :: rest, _ =>
    have h1 : isDigitCh d1 = true := hdig d1 (by simp)
    have h2 : isDigitCh d2 = true := hdig d2 (by simp)
    have hrun : IsDigitRun (d3 :: rest) := by
      refine ⟨by simp, fun c hc => hdig c ?_⟩
      simp only [List.mem_cons] at hc ⊢
      tauto
    have hc : digitsThenClose (d3 :: (rest ++ [')'])) = some (d3 :: rest) := by
      simpa using digitsThenClose_run hrun
    simp [alphaClose, h1, notNewline_of_digit h2, hc, Option.orElse]

/-- An alpha token `d.fs` (one digit, a dot, a nonempty digit run) before the
closing paren is captured whole. -/
theorem alphaClose_dec {d : Char} (hd : isDigitCh d = true) {fs : List Char}
    (hf : IsDigitRun fs) :
    alphaClose (d :: '.' :: (fs ++ [')'])) = some (d :: '.' :: fs) := by
  have hc : digitsThenClose (fs ++ [')']) = some fs := digitsThenClose_run hf
  simp [alphaClose, hd, hc, Option.orElse, show notNewline '.' = true from by decide]

/-- An alpha token `.fs` before the closing paren is captured whole. -/
theorem alphaClose_dotOnly {fs : List Char} (hf : IsDigitRun fs) :
    alphaClose ('.' :: (fs ++ [')'])) = some ('.' :: fs) := by
  have hc : digitsThenClose (fs ++ [')']) = some fs := digitsThenClose_run hf
  obtain ⟨hne, hdig⟩ := hf
  obtain ⟨f, fs', rfl⟩ := List.exists_cons_of_ne_nil hne
  have hc' : digitsThenClose (f :: (fs' ++ [')'])) = some (f :: fs') := by
    simpa using hc
  simp [alphaClose, hc', Option.orElse, show isDigitCh '.' = false from by decide,
    show notNewline '.' = true from by decide]

end ShopStyles

namespace ShopStyles

theorem stripSign_of_ne {c : Char} (h1 : c ≠ '+') (h2 : c ≠ '-') (t : List Char) :
    stripSign (c :: t) = (1, c :: t) := by
  simp [stripSign, h1, h2]

theorem parseFloatJS_digits {ds : List Char} (hd : IsDigitRun ds) :
    parseFloatJS ds = some ((decVal ds : ℚ)) := by
  obtain ⟨hne, hdig⟩ := hd
  obtain ⟨d, ds', rfl⟩ := List.exists_cons_of_ne_nil hne
  have h0 : isDigitCh d = true := hdig d (List.mem_cons_self d ds')
  have hdrop : (d :: ds').dropWhile isWsCh = d :: ds' :=
    List.dropWhile_cons_of_neg (by simp [ws_false_of_digit h0])
  have hsign : stripSign (d :: ds') = (1, d :: ds') :=
    stripSign_of_ne (ne_of_predFalse h0 (by decide)) (ne_of_predFalse h0 (by decide)) ds'
  have htake : (d :: ds').takeWhile isDigitCh = d :: ds' := takeWhile_all hdig
  have hdropd : (d :: ds').dropWhile isDigitCh = [] := dropWhile_all hdig
  simp [parseFloatJS, hdrop, hsign, htake, hdropd, show decVal [] = 0 from rfl]

theorem parseFloatJS_dec {d : Char} (hd0 : isDigitCh d = true) {fs : List Char}
    (hf : IsDigitRun fs) :
    parseFloatJS (d :: '.' :: fs)
      = some ((decVal [d] : ℚ) + (decVal fs : ℚ) / 10 ^ fs.length) := by
  obtain ⟨hne, hdig⟩ := hf
  have hdrop : (d :: '.' :: fs).dropWhile isWsCh = d :: '.' :: fs :=
    List.dropWhile_cons_of_neg (by simp [ws_false_of_digit hd0])
  have hsign : stripSign (d :: '.' :: fs) = (1, d :: '.' :: fs) :=
    stripSign_of_ne (ne_of_predFalse hd0 (by decide)) (ne_of_predFalse hd0 (by decide)) _
  have htake : (d :: '.' :: fs).takeWhile isDigitCh = [d] := by
    rw [List.takeWhile_cons_of_pos hd0, List.takeWhile_cons_of_neg (by decide)]
  have hdropd : (d :: '.' :: fs).dropWhile isDigitCh = '.' :: fs := by
    rw [List.dropWhile_cons_of_pos hd0, List.dropWhile_cons_of_neg (by decide)]
  have htfs : fs.takeWhile isDigitCh = fs := takeWhile_all hdig
  have hdfs : fs.dropWhile isDigitCh = [] := dropWhile_all hdig
  obtain ⟨f, fs', rfl⟩ := List.exists_cons_of_ne_nil hne
  simp [parseFloatJS, hdrop, hsign, htake, hdropd, htfs, hdfs]

theorem parseFloatJS_dotOnly {fs : List Char} (hf : IsDigitRun fs) :
    parseFloatJS ('.' :: fs) = some ((decVal fs : ℚ) / 10 ^ fs.length) := by
  obtain ⟨hne, hdig⟩ := hf
  have hdrop : ('.' :: fs).dropWhile isWsCh = '.' :: fs :=
    List.dropWhile_cons_of_neg (by decide)
  have hsign : stripSign ('.' :: fs) = (1, '.' :: fs) :=
    stripSign_of_ne (by decide) (by decide) _
  have htake : ('.' :: fs).takeWhile isDigitCh = [] :=
    List.takeWhile_cons_of_neg (by decide)
  have hdropd : ('.' :: fs).dropWhile isDigitCh = '.' :: fs :=
    List.dropWhile_cons_of_neg (by decide)
  have htfs : fs.takeWhile isDigitCh = fs := takeWhile_all hdig
  have hdfs : fs.dropWhile isDigitCh = [] := dropWhile_all hdig
  obtain ⟨f, fs', rfl⟩ := List.exists_cons_of_ne_nil hne
  simp [parseFloatJS, hdrop, hsign, htake, hdropd, htfs, hdfs, show decVal [] = 0 from rfl]

end ShopStyles

namespace ShopStyles

theorem matchAfterParen_noAlpha {w1 d1 w2 d2 w3 d3 : List Char}
    (hw1 : IsWsRun w1) (hd1 : IsDigitRun d1) (hw2 : IsWsRun w2) (hd2 : IsDigitRun d2)
    (hw3 : IsWsRun w3) (hd3 : IsDigitRun d3) :
    matchAfterParen
        (w1 ++ (d1 ++ (',' :: (w2 ++ (d2 ++ (',' :: (w3 ++ (d3 ++ [')']))))))))
      = some ⟨d1, d2, d3, none⟩ := by
  have h1 := @wsNumComma_run w1 d1
    (w2 ++ (d2 ++ (',' :: (w3 ++ (d3 ++ [')']))))) hw1 hd1
  have h2 := @wsNumComma_run w2 d2 (w3 ++ (d3 ++ [')'])) hw2 hd2
  have h3 := wsNum_run hw3 hd3 (e := ')') (t := []) (by decide)
  simp [matchAfterParen, h1, h2, h3]

theorem matchAfterParen_alpha {w1 d1 w2 d2 w3 d3 w4 a cap : List Char}
    (hw1 : IsWsRun w1) (hd1 : IsDigitRun d1) (hw2 : IsWsRun w2) (hd2 : IsDigitRun d2)
    (hw3 : IsWsRun w3) (hd3 : IsDigitRun d3)
    (hhead : (w4 ++ (a ++ [')'])).dropWhile isWsCh = a ++ [')'])
    (hac : alphaClose (a ++ [')']) = some cap) :
    matchAfterParen
        (w1 ++ (d1 ++ (',' :: (w2 ++ (d2 ++ (',' ::
          (w3 ++ (d3 ++ (',' :: (w4 ++ (a ++ [')'])))))))))))
      = some ⟨d1, d2, d3, some cap⟩ := by
  have h1 := @wsNumComma_run w1 d1
    (w2 ++ (d2 ++ (',' :: (w3 ++ (d3 ++ (',' :: (w4 ++ (a ++ [')'])))))))) hw1 hd1
  have h2 := @wsNumComma_run w2 d2
    (w3 ++ (d3 ++ (',' :: (w4 ++ (a ++ [')']))))) hw2 hd2
  have h3 := wsNum_run hw3 hd3 (e := ',') (t := w4 ++ (a ++ [')'])) (by decide)
  simp [matchAfterParen, h1, h2, h3, hhead, hac]

theorem findRgbMatch_rgb {body : List Char} {cap : RgbCaptures}
    (h : matchAfterParen body = some cap) :
    findRgbMatch ('r' :: 'g' :: 'b' :: '(' :: body) = some cap := by
  have e : matchRgbAt ('r' :: 'g' :: 'b' :: '(' :: body) = matchAfterParen body := rfl
  simp [findRgbMatch, e, h, Option.orElse]

theorem findRgbMatch_rgba {body : List Char} {cap : RgbCaptures}
    (h : matchAfterParen body = some cap) :
    findRgbMatch ('r' :: 'g' :: 'b' :: 'a' :: '(' :: body) = some cap := by
  have e : matchRgbAt ('r' :: 'g' :: 'b' :: 'a' :: '(' :: body) = matchAfterParen body := rfl
  simp [findRgbMatch, e, h, Option.orElse]

theorem parseRgbString_noAlpha {s : String} {d1 d2 d3 : List Char}
    (h : findRgbMatch s.toList = some ⟨d1, d2, d3, none⟩) :
    parseRgbString s = ⟨decVal d1, decVal d2, decVal d3, some 1⟩ := by
  have h' : findRgbMatch s.data = some ⟨d1, d2, d3, none⟩ := h
  simp [parseRgbString, h']

theorem parseRgbString_alpha {s : String} {d1 d2 d3 a : List Char}
    (h : findRgbMatch s.toList = some ⟨d1, d2, d3, some a⟩) :
    parseRgbString s = ⟨decVal d1, decVal d2, decVal d3, parseFloatJS a⟩ := by
  have h' : findRgbMatch s.data = some ⟨d1, d2, d3, some a⟩ := h
  simp [parseRgbString, h']

end ShopStyles

namespace ShopStyles

/-- C7 (amended): `parseRgbString` accepts `rgb(r,g,b)` / `rgba(r,g,b,a)`
forms in which whitespace sits only immediately after the opening paren or a
comma (not before commas or the closing paren); channels are the parsed
decimal integers; a missing alpha defaults to 1; the alpha token admits at
most one digit before an optional decimal point (plain digit runs of any
length are fine); the three concrete examples hold; and a string in which
the pattern does not occur anywhere yields `{r:0,g:0,b:0,a:1}`. -/
theorem claim_C7_parse_rgb_amended :
    (∀ w1 d1 w2 d2 w3 d3 : List Char,
      IsWsRun w1 → IsDigitRun d1 → IsWsRun w2 → IsDigitRun d2 →
      IsWsRun w3 → IsDigitRun d3 →
      parseRgbString (rgbForm w1 d1 w2 d2 w3 d3)
        = ⟨decVal d1, decVal d2, decVal d3, some 1⟩)
    ∧ (∀ w1 d1 w2 d2 w3 d3 w4 a : List Char,
      IsWsRun w1 → IsDigitRun d1 → IsWsRun w2 → IsDigitRun d2 →
      IsWsRun w3 → IsDigitRun d3 → IsWsRun w4 → IsDigitRun a →
      parseRgbString (rgbaForm w1 d1 w2 d2 w3 d3 w4 a)
        = ⟨decVal d1, decVal d2, decVal d3, some ((decVal a : ℚ))⟩)
    ∧ (∀ w1 d1 w2 d2 w3 d3 w4 : List Char, ∀ d : Char, ∀ fs : List Char,
      IsWsRun w1 → IsDigitRun d1 → IsWsRun w2 → IsDigitRun d2 →
      IsWsRun w3 → IsDigitRun d3 → IsWsRun w4 → isDigitCh d = true → IsDigitRun fs →
      parseRgbString (rgbaForm w1 d1 w2 d2 w3 d3 w4 (d :: '.' :: fs))
        = ⟨decVal d1, decVal d2, decVal d3,
            some ((decVal [d] : ℚ) + (decVal fs : ℚ) / 10 ^ fs.length)⟩)
    ∧ (∀ w1 d1 w2 d2 w3 d3 w4 : List Char, ∀ fs : List Char,
      IsWsRun w1 → IsDigitRun d1 → IsWsRun w2 → IsDigitRun d2 →
      IsWsRun w3 → IsDigitRun d3 → IsWsRun w4 → IsDigitRun fs →
      parseRgbString (rgbaForm w1 d1 w2 d2 w3 d3 w4 ('.' :: fs))
        = ⟨decVal d1, decVal d2, decVal d3, some ((decVal fs : ℚ) / 10 ^ fs.length)⟩)
    ∧ parseRgbString ( "rgb(10, 20, 30)") = ⟨10, 20, 30, some 1⟩
    ∧ parseRgbString ( "rgba(1,2,3,0.5)") = ⟨1, 2, 3, some (1 / 2)⟩
    ∧ parseRgbString ( "garbage") = ⟨0, 0, 0, some 1⟩
    ∧ (∀ s : String, findRgbMatch s.toList = none → parseRgbString s = ⟨0, 0, 0, some 1⟩) := by
  refine ⟨?_, ?_, ?_, ?_, by with_unfolding_all rfl, by with_unfolding_all rfl,
    by with_unfolding_all rfl, ?_⟩
  · intro w1 d1 w2 d2 w3 d3 hw1 hd1 hw2 hd2 hw3 hd3
    exact parseRgbString_noAlpha
      (findRgbMatch_rgb (matchAfterParen_noAlpha hw1 hd1 hw2 hd2 hw3 hd3))
  · intro w1 d1 w2 d2 w3 d3 w4 a hw1 hd1 hw2 hd2 hw3 hd3 hw4 ha
    have hhead : (w4 ++ (a ++ [')'])).dropWhile isWsCh = a ++ [')'] := by
      obtain ⟨a0, a', rfl⟩ := List.exists_cons_of_ne_nil ha.1
      rw [List.cons_append]
      exact dropWhile_ws_append hw4 (ha.2 a0 (List.mem_cons_self a0 a'))
    have h := findRgbMatch_rgba
      (matchAfterParen_alpha hw1 hd1 hw2 hd2 hw3 hd3 hhead (alphaClose_digits ha))
    have e1 : parseRgbString (rgbaForm w1 d1 w2 d2 w3 d3 w4 a)
        = ⟨decVal d1, decVal d2, decVal d3, parseFloatJS a⟩ := parseRgbString_alpha h
    rw [e1, parseFloatJS_digits ha]
  · intro w1 d1 w2 d2 w3 d3 w4 d fs hw1 hd1 hw2 hd2 hw3 hd3 hw4 hd0 hf
    have hhead : (w4 ++ ((d :: '.' :: fs) ++ [')'])).dropWhile isWsCh
        = (d :: '.' :: fs) ++ [')'] := by
      simp only [List.cons_append]
      exact dropWhile_ws_append hw4 hd0
    have h := findRgbMatch_rgba
      (matchAfterParen_alpha hw1 hd1 hw2 hd2 hw3 hd3 hhead (alphaClose_dec hd0 hf))
    have e1 : parseRgbString (rgbaForm w1 d1 w2 d2 w3 d3 w4 (d :: '.' :: fs))
        = ⟨decVal d1, decVal d2, decVal d3, parseFloatJS (d :: '.' :: fs)⟩ :=
      parseRgbString_alpha h
    rw [e1, parseFloatJS_dec hd0 hf]
  · intro w1 d1 w2 d2 w3 d3 w4 fs hw1 hd1 hw2 hd2 hw3 hd3 hw4 hf
    have hhead : (w4 ++ (('.' :: fs) ++ [')'])).dropWhile isWsCh
        = ('.' :: fs) ++ [')'] := by
      simp only [List.cons_append]
      exact dropWhile_append_all hw4 (List.dropWhile_cons_of_neg (by decide))
    have h := findRgbMatch_rgba
      (matchAfterParen_alpha hw1 hd1 hw2 hd2 hw3 hd3 hhead (alphaClose_dotOnly hf))
    have e1 : parseRgbString (rgbaForm w1 d1 w2 d2 w3 d3 w4 ('.' :: fs))
        = ⟨decVal d1, decVal d2, decVal d3, parseFloatJS ('.' :: fs)⟩ :=
      parseRgbString_alpha h
    rw [e1, parseFloatJS_dotOnly hf]
  · intro s h
    have h' : findRgbMatch s.data = none := h
    simp [parseRgbString, h']

/-- C7 counterexamples to the claim as stated: a single space before a comma
defeats the regex (the channels are not returned), and the unanchored
pattern also fires inside a larger string (so a non-`rgb(...)`-shaped string
need not get the fallback). -/
theorem claim_C7_counterexample :
    parseRgbString ( "rgb(10 ,20,30)") = ⟨0, 0, 0, some 1⟩
    ∧ parseRgbString ( "rgb(10 ,20,30)") ≠ ⟨10, 20, 30, some 1⟩
    ∧ parseRgbString ( "xxrgb(1,2,3)yy") = ⟨1, 2, 3, some 1⟩ := by
  refine ⟨by with_unfolding_all rfl, ?_, by with_unfolding_all rfl⟩
  rw [show parseRgbString ( "rgb(10 ,20,30)") = ⟨0, 0, 0, some 1⟩ from
    by with_unfolding_all rfl]
  simp

/-- Closed instance of the amended C7: a spaced rgb form and an rgba form
with a decimal alpha. -/
theorem claim_C7_parse_rgb_amended_witness :
    parseRgbString (rgbForm [' '] ['1', '0'] [' '] ['2', '0'] [' '] ['3', '0'])
      = ⟨10, 20, 30, some 1⟩
    ∧ parseRgbString (rgbaForm [] ['1'] [] ['2'] [] ['3'] [' '] ('0' :: '.' :: ['5']))
      = ⟨1, 2, 3, some (1 / 2)⟩ := by
  have hsp : ∀ c ∈ [' '], isWsCh c = true := by decide
  have hnil : ∀ c ∈ ([] : List Char), isWsCh c = true := by decide
  have h10 : (['1', '0'] : List Char) ≠ [] ∧ ∀ c ∈ ['1', '0'], isDigitCh c = true := by decide
  have h20 : (['2', '0'] : List Char) ≠ [] ∧ ∀ c ∈ ['2', '0'], isDigitCh c = true := by decide
  have h30 : (['3', '0'] : List Char) ≠ [] ∧ ∀ c ∈ ['3', '0'], isDigitCh c = true := by decide
  have h1 : (['1'] : List Char) ≠ [] ∧ ∀ c ∈ ['1'], isDigitCh c = true := by decide
  have h2 : (['2'] : List Char) ≠ [] ∧ ∀ c ∈ ['2'], isDigitCh c = true := by decide
  have h3 : (['3'] : List Char) ≠ [] ∧ ∀ c ∈ ['3'], isDigitCh c = true := by decide
  have h5 : (['5'] : List Char) ≠ [] ∧ ∀ c ∈ ['5'], isDigitCh c = true := by decide
  constructor
  · refine (claim_C7_parse_rgb_amended.1 [' '] ['1', '0'] [' '] ['2', '0'] [' '] ['3', '0']
      hsp h10 hsp h20 hsp h30).trans ?_
    with_unfolding_all rfl
  · refine (claim_C7_parse_rgb_amended.2.2.1 [] ['1'] [] ['2'] [] ['3'] [' '] '0' ['5']
      hnil h1 hnil h2 hnil h3 hsp (by decide) h5).trans ?_
    with_unfolding_all rfl

end ShopStyles
